import Mathlib

/-!
Verification of the ngorm/postgres dialect adapter.

The development shallowly embeds the two Go source files (`dialect.go` and
the unnamed duplicate carrying the `Hstore` codec) into Lean:

* `ReflectKind`, `DataValue`, `StructField` model the descriptor data that
  `model.ParseFieldStructForDialect` hands to `DataTypeOf`: the reflected
  value (its kind, type name, array length, element type, time.Time-ness),
  the pre-set SQL type, the size, and the additional type suffix, together
  with the field's primary-key flag and its mutable tag-settings map.
* `resolveType` is the kind dispatch of `DataTypeOf` (the big `switch`),
  returning the inferred bare type together with the possibly extended tag
  settings; `DataTypeOf` wraps it with the error and suffix handling, and
  returns the updated field to make the Go in-place mutation of
  `field.TagSettings` explicit.
* `HasIndex`, `HasForeignKey`, `HasTable`, `HasColumn`, `CurrentDatabase`
  run over an abstract `DB` oracle; the ignored `Scan` error of the Go code
  is the `scanIntIgnoringError` fallback to the zero value.
* The `Hstore` codec is `Hstore.Value` / `Hstore.Scan`; the underlying
  `lib/pq/hstore` serializer and parser are not part of this repository and
  are modelled from the spec's wire-format description.
-/

/-- Go's `reflect.Kind` enumeration (the kinds the dialect can encounter). -/
inductive ReflectKind where
  | invalid
  | bool
  | int
  | int8
  | int16
  | int32
  | int64
  | uint
  | uint8
  | uint16
  | uint32
  | uint64
  | uintptr
  | float32
  | float64
  | complex64
  | complex128
  | array
  | chan
  | func
  | interface
  | map
  | ptr
  | slice
  | string
  | struct
deriving DecidableEq

/-- Go's `reflect.Kind.String()` for the kinds above. -/
def kindString : ReflectKind → String
  | .invalid => "invalid"
  | .bool => "bool"
  | .int => "int"
  | .int8 => "int8"
  | .int16 => "int16"
  | .int32 => "int32"
  | .int64 => "int64"
  | .uint => "uint"
  | .uint8 => "uint8"
  | .uint16 => "uint16"
  | .uint32 => "uint32"
  | .uint64 => "uint64"
  | .uintptr => "uintptr"
  | .float32 => "float32"
  | .float64 => "float64"
  | .complex64 => "complex64"
  | .complex128 => "complex128"
  | .array => "array"
  | .chan => "chan"
  | .func => "func"
  | .interface => "interface"
  | .map => "map"
  | .ptr => "ptr"
  | .slice => "slice"
  | .string => "string"
  | .struct => "struct"

/-- The reflected value handed to `DataTypeOf` (`dataValue` in the Go code):
its kind, the runtime type name `dataValue.Type().Name()`, the declared
array length `dataValue.Type().Len()` (meaningful for array kinds), whether
the element type is `uint8` (`dataValue.Type().Elem() == reflect.TypeOf(uint8(0))`),
and whether the value is a `time.Time` (the `dataValue.Interface().(time.Time)`
type assertion). -/
structure DataValue where
  kind : ReflectKind
  typeName : String
  typeLen : Nat
  elemIsUint8 : Bool
  isTimeTime : Bool
deriving DecidableEq

/-- Go's `strings.ToLower`, over the character list of the string. -/
def toLowerStr (s : String) : String := String.mk (s.data.map Char.toLower)

/-- Go's `strings.TrimSpace`: drop whitespace characters from both ends. -/
def trimSpace (s : String) : String :=
  String.mk (((s.data.dropWhile Char.isWhitespace).reverse.dropWhile
    Char.isWhitespace).reverse)

/-- `isByteArrayOrSlice` from dialect.go: an array or slice whose element
type is `uint8`. -/
def isByteArrayOrSlice (value : DataValue) : Bool :=
  (value.kind == .array || value.kind == .slice) && value.elemIsUint8

/-- `isUUID` from dialect.go: a 16-element array whose type name is
`uuid` or `guid` case-insensitively. -/
def isUUID (value : DataValue) : Bool :=
  if value.kind != .array || value.typeLen != 16 then false
  else
    let typename := value.typeName
    let lower := toLowerStr typename
    "uuid" == lower || "guid" == lower

/-- Lookup in a Go `map[string]string`, modelled as an association list. -/
def lookupTag : List (String × String) → String → Option String
  | [], _ => none
  | (k, v) :: rest, key => if k = key then some v else lookupTag rest key

/-- Assignment `m[key] = value` on a Go `map[string]string`: replaces the
entry with that key if present, otherwise appends it. -/
def insertTag : List (String × String) → String → String → List (String × String)
  | [], key, value => [(key, value)]
  | (k, v) :: rest, key, value =>
    if k = key then (key, value) :: rest else (k, v) :: insertTag rest key value

/-- The field descriptor consumed by `DataTypeOf`. `isPrimaryKey` and
`tagSettings` are the `model.StructField` members the code reads and
writes; `dataValue`, `sqlType`, `size` and `additionalType` are the four
results of `model.ParseFieldStructForDialect(field)` (that parsing step is
external to this repository, so its outputs are taken as descriptor data,
as in the spec's Field Descriptor). -/
structure StructField where
  isPrimaryKey : Bool
  tagSettings : List (String × String)
  dataValue : DataValue
  sqlType : String
  size : Int
  additionalType : String
deriving DecidableEq

/-- The kind dispatch of `DataTypeOf` (its outer `if sqlType == ""` and the
`switch dataValue.Kind()`): returns the resolved bare SQL type (the empty
string when no rule fires) together with the tag settings after the
dispatch (the serial branches insert the `AUTO_INCREMENT` marker). -/
def resolveType (field : StructField) : String × List (String × String) :=
  let dataValue := field.dataValue
  if field.sqlType ≠ "" then (field.sqlType, field.tagSettings)
  else
    match dataValue.kind with
    | .bool => ("boolean", field.tagSettings)
    | .int | .int8 | .int16 | .int32
    | .uint | .uint8 | .uint16 | .uint32
    | .uintptr =>
      if (lookupTag field.tagSettings "AUTO_INCREMENT").isSome || field.isPrimaryKey then
        ("serial", insertTag field.tagSettings "AUTO_INCREMENT" "AUTO_INCREMENT")
      else
        ("integer", field.tagSettings)
    | .int64 | .uint64 =>
      if (lookupTag field.tagSettings "AUTO_INCREMENT").isSome || field.isPrimaryKey then
        ("bigserial", insertTag field.tagSettings "AUTO_INCREMENT" "AUTO_INCREMENT")
      else
        ("bigint", field.tagSettings)
    | .float32 | .float64 => ("numeric", field.tagSettings)
    | .string =>
      let size := if (lookupTag field.tagSettings "SIZE").isNone then 0 else field.size
      if 0 < size ∧ size < 65532 then
        ("varchar(" ++ toString size ++ ")", field.tagSettings)
      else
        ("text", field.tagSettings)
    | .struct =>
      (if dataValue.isTimeTime then "timestamp with time zone" else "", field.tagSettings)
    | .map =>
      (if dataValue.typeName == "Hstore" then "hstore" else "", field.tagSettings)
    | _ =>
      if isByteArrayOrSlice dataValue then ("bytea", field.tagSettings)
      else if isUUID dataValue then ("uuid", field.tagSettings)
      else ("", field.tagSettings)

/-- `DataTypeOf` from dialect.go. The first component is the Go
`(string, error)` result; the second is the field after the call, carrying
the in-place mutation of `field.TagSettings`. -/
def DataTypeOf (field : StructField) : Except String String × StructField :=
  let r := resolveType field
  let sqlType := r.1
  let fieldAfter : StructField := { field with tagSettings := r.2 }
  (if sqlType = "" then
    .error ("invalid sql type " ++ field.dataValue.typeName ++ " (" ++
      kindString field.dataValue.kind ++ ") for postgres")
  else if trimSpace field.additionalType = "" then
    .ok sqlType
  else
    .ok (sqlType ++ " " ++ field.additionalType), fieldAfter)

/-- A descriptor with the given kind-level data and no tags, no pre-set
type, no suffix: convenience for concrete test inputs. -/
def mkField (pk : Bool) (tags : List (String × String)) (dv : DataValue)
    (sql : String) (size : Int) (add : String) : StructField :=
  ⟨pk, tags, dv, sql, size, add⟩

example :
    (DataTypeOf (mkField false [] ⟨.uint32, "uint32", 0, false, false⟩ "" 0 "")).1 =
      .ok "integer" := rfl

example :
    (DataTypeOf (mkField false [] ⟨.float64, "float64", 0, false, false⟩ "" 0 "NOT NULL")).1 =
      .ok "numeric NOT NULL" := rfl

example :
    DataTypeOf (mkField true [] ⟨.int8, "int8", 0, false, false⟩ "" 0 "") =
      (.ok "serial",
        mkField true [("AUTO_INCREMENT", "AUTO_INCREMENT")]
          ⟨.int8, "int8", 0, false, false⟩ "" 0 "") := rfl

example :
    (DataTypeOf (mkField false [] ⟨.array, "UUID", 16, true, false⟩ "" 0 "")).1 =
      .ok "bytea" := rfl

example :
    (DataTypeOf (mkField false [] ⟨.array, "UUID", 16, false, false⟩ "" 0 "")).1 =
      .ok "uuid" := rfl

example :
    (DataTypeOf (mkField false [("SIZE", "255")] ⟨.string, "string", 0, false, false⟩ "" 255 "")).1 =
      .ok "varchar(255)" := rfl

example :
    (DataTypeOf (mkField false [] ⟨.chan, "myT", 0, false, false⟩ "" 0 "")).1 =
      .error "invalid sql type myT (chan) for postgres" := rfl

theorem lookupTag_insertTag_self (m : List (String × String)) (k v : String) :
    lookupTag (insertTag m k v) k = some v := by
  induction m with
  | nil => simp [insertTag, lookupTag]
  | cons e rest ih =>
    obtain ⟨k', v'⟩ := e
    by_cases h : k' = k
    · subst h; simp [insertTag, lookupTag]
    · simp [insertTag, lookupTag, h, ih]

theorem lookupTag_insertTag_ne (m : List (String × String)) (k k' v : String)
    (h : k' ≠ k) : lookupTag (insertTag m k v) k' = lookupTag m k' := by
  have hne : ¬ (k = k') := fun he => h he.symm
  induction m with
  | nil => simp [insertTag, lookupTag, hne]
  | cons e rest ih =>
    obtain ⟨k0, v0⟩ := e
    by_cases h0 : k0 = k
    · subst h0
      simp [insertTag, lookupTag, hne]
    · by_cases h1 : k0 = k'
      · subst h1; simp [insertTag, lookupTag, h0]
      · simp [insertTag, lookupTag, h0, h1, ih]

theorem insertTag_insertTag (m : List (String × String)) (k v : String) :
    insertTag (insertTag m k v) k v = insertTag m k v := by
  induction m with
  | nil => simp [insertTag]
  | cons e rest ih =>
    obtain ⟨k0, v0⟩ := e
    by_cases h0 : k0 = k
    · subst h0; simp [insertTag]
    · simp [insertTag, h0, ih]

theorem DataTypeOf_snd (f : StructField) :
    (DataTypeOf f).2 = { f with tagSettings := (resolveType f).2 } := rfl

/-- 32-bit-or-narrower fixed-width integer kinds of the descriptor model. -/
def isIntKind32 : ReflectKind → Bool
  | .int8 | .int16 | .int32 | .uint8 | .uint16 | .uint32 => true
  | _ => false

/-- The 64-bit integer kinds of the descriptor model. -/
def isIntKind64 : ReflectKind → Bool
  | .int64 | .uint64 => true
  | _ => false

/-- C1: for integer-kind descriptors with no pre-set SQL type, primary key
or a pre-existing AUTO_INCREMENT tag (any value) gives serial/bigserial and
leaves an AUTO_INCREMENT entry in the tag settings; otherwise the result is
integer/bigint. -/
theorem resolveType_integer (f : StructField) (hsql : f.sqlType = "")
    (hk : isIntKind32 f.dataValue.kind = true ∨ isIntKind64 f.dataValue.kind = true) :
    if ((lookupTag f.tagSettings "AUTO_INCREMENT").isSome || f.isPrimaryKey) = true then
      (resolveType f).1 = (if isIntKind64 f.dataValue.kind = true then "bigserial" else "serial") ∧
        (lookupTag (DataTypeOf f).2.tagSettings "AUTO_INCREMENT").isSome = true
    else
      (resolveType f).1 = (if isIntKind64 f.dataValue.kind = true then "bigint" else "integer") := by
  obtain ⟨pk, tags, dv, sql, sz, add⟩ := f
  obtain ⟨k, tn, tl, e8, tt⟩ := dv
  dsimp at hsql hk ⊢
  subst hsql
  by_cases h : ((lookupTag tags "AUTO_INCREMENT").isSome || pk) = true <;>
    cases k <;>
      simp_all [isIntKind32, isIntKind64, resolveType, DataTypeOf_snd,
        lookupTag_insertTag_self]

def intPKField : StructField := mkField true [] ⟨.int8, "int8", 0, false, false⟩ "" 0 ""

theorem resolveType_integer_witness :
    (resolveType intPKField).1 = "serial" ∧
      (lookupTag (DataTypeOf intPKField).2.tagSettings "AUTO_INCREMENT").isSome = true := by
  have h := resolveType_integer intPKField rfl (Or.inl rfl)
  simpa using h

/-- C2: for string-kind descriptors with no pre-set SQL type, a missing
SIZE tag forces `text` regardless of the descriptor's size value; with a
SIZE tag the size decides between `varchar(size)` and `text` at the
exclusive 65532 bound. -/
theorem resolveType_string (f : StructField) (hsql : f.sqlType = "")
    (hk : f.dataValue.kind = .string) :
    (lookupTag f.tagSettings "SIZE" = none → (resolveType f).1 = "text") ∧
    (∀ v, lookupTag f.tagSettings "SIZE" = some v →
      (resolveType f).1 =
        if 0 < f.size ∧ f.size < 65532 then "varchar(" ++ toString f.size ++ ")"
        else "text") := by
  obtain ⟨pk, tags, dv, sql, sz, add⟩ := f
  obtain ⟨k, tn, tl, e8, tt⟩ := dv
  dsimp at hsql hk ⊢
  subst hsql
  subst hk
  constructor
  · intro h
    simp [resolveType, h]
  · intro v h
    simp [resolveType, h]
    split <;> rfl

def sizedStringField : StructField :=
  mkField false [("SIZE", "255")] ⟨.string, "string", 0, false, false⟩ "" 255 ""

theorem resolveType_string_witness :
    (resolveType sizedStringField).1 = "varchar(255)" := by
  have h := (resolveType_string sizedStringField rfl rfl).2 "255" rfl
  simpa using h

/-- The code's counterexample input to C3 as stated: a 16-byte array whose
element type is `uint8` and whose type name is `UUID`. -/
def byteUUIDField : StructField :=
  mkField false [] ⟨.array, "UUID", 16, true, false⟩ "" 0 ""

theorem dataTypeOf_byteUUID_bytea :
    (DataTypeOf byteUUIDField).1 = .ok "bytea" ∧
      ¬ (DataTypeOf byteUUIDField).1 = .ok "uuid" := by
  refine ⟨rfl, fun h => ?_⟩
  have hb : (Except.ok "bytea" : Except String String) = .ok "uuid" :=
    Eq.trans (by rfl) h
  exact absurd (Except.ok.inj hb) (by decide)

/-- C3 amended: a fixed 16-byte array named `uuid`/`guid` case-insensitively
resolves to `uuid` provided its element type is not `uint8`; otherwise the
byte-sequence rule fires first and yields `bytea`. -/
theorem resolveType_uuid (f : StructField) (hsql : f.sqlType = "")
    (hk : f.dataValue.kind = .array) (hlen : f.dataValue.typeLen = 16)
    (hname : toLowerStr f.dataValue.typeName = "uuid" ∨
      toLowerStr f.dataValue.typeName = "guid")
    (hbyte : f.dataValue.elemIsUint8 = false) :
    (resolveType f).1 = "uuid" := by
  obtain ⟨pk, tags, dv, sql, sz, add⟩ := f
  obtain ⟨k, tn, tl, e8, tt⟩ := dv
  dsimp at hsql hk hlen hname hbyte ⊢
  subst hsql; subst hk; subst hlen; subst hbyte
  rcases hname with h | h <;>
    simp [resolveType, isByteArrayOrSlice, isUUID, h]

def guidField : StructField :=
  mkField false [] ⟨.array, "Guid", 16, false, false⟩ "" 0 ""

theorem resolveType_uuid_witness : (resolveType guidField).1 = "uuid" :=
  resolveType_uuid guidField rfl rfl rfl (Or.inr rfl) rfl

theorem lookupTag_insertTag_isSome (m : List (String × String)) (k key v : String)
    (h : (lookupTag m key).isSome = true) :
    (lookupTag (insertTag m k v) key).isSome = true := by
  by_cases hk : key = k
  · subst hk; simp [lookupTag_insertTag_self]
  · rw [lookupTag_insertTag_ne m k key v hk]; exact h

theorem resolveType_tags (f : StructField) :
    (resolveType f).2 = f.tagSettings ∨
      (resolveType f).2 = insertTag f.tagSettings "AUTO_INCREMENT" "AUTO_INCREMENT" := by
  obtain ⟨pk, tags, dv, sql, sz, add⟩ := f
  obtain ⟨k, tn, tl, e8, tt⟩ := dv
  by_cases hs : sql = ""
  · subst hs
    cases k <;> first
      | (left; rfl)
      | (simp [resolveType, apply_ite Prod.snd]; done)
      | ((by_cases hc : ((lookupTag tags "AUTO_INCREMENT").isSome || pk) = true <;>
          simp [resolveType, hc]); done)
  · simp [resolveType, hs]

/-- The claim C9's superset relation on tag settings, read as key-value
pairs: every entry of `before` is still an entry of `after`. -/
def tagsSuperset (before after : List (String × String)) : Prop :=
  ∀ k v, lookupTag before k = some v → lookupTag after k = some v

/-- An integer field that already carries an AUTO_INCREMENT tag whose value
is not the marker string: inference overwrites the value. -/
def autoTaggedIntField : StructField :=
  mkField false [("AUTO_INCREMENT", "x")] ⟨.int8, "int8", 0, false, false⟩ "" 0 ""

/-- C9 counterexample: the tag settings after inference are not a superset
of the pairs before it, because the pre-existing AUTO_INCREMENT entry's
value "x" is overwritten with "AUTO_INCREMENT". -/
theorem dataTypeOf_not_tagsSuperset :
    ¬ tagsSuperset autoTaggedIntField.tagSettings
      (DataTypeOf autoTaggedIntField).2.tagSettings := by
  intro h
  exact absurd (h "AUTO_INCREMENT" "x" rfl) (by decide)

/-- C9 amended: inference leaves every descriptor field other than
`tagSettings` unchanged; the tag settings are either untouched or have
exactly the AUTO_INCREMENT entry upserted (its value may be overwritten
with "AUTO_INCREMENT" if the key was already present); and no key is ever
removed. -/
theorem dataTypeOf_frame (f : StructField) :
    ((DataTypeOf f).2.isPrimaryKey = f.isPrimaryKey ∧
      (DataTypeOf f).2.dataValue = f.dataValue ∧
      (DataTypeOf f).2.sqlType = f.sqlType ∧
      (DataTypeOf f).2.size = f.size ∧
      (DataTypeOf f).2.additionalType = f.additionalType) ∧
    ((DataTypeOf f).2.tagSettings = f.tagSettings ∨
      (DataTypeOf f).2.tagSettings =
        insertTag f.tagSettings "AUTO_INCREMENT" "AUTO_INCREMENT") ∧
    (∀ k, (lookupTag f.tagSettings k).isSome = true →
      (lookupTag (DataTypeOf f).2.tagSettings k).isSome = true) := by
  refine ⟨⟨rfl, rfl, rfl, rfl, rfl⟩, ?_, ?_⟩
  · rw [DataTypeOf_snd]
    exact resolveType_tags f
  · intro k hk
    rw [DataTypeOf_snd]
    rcases resolveType_tags f with h | h
    · dsimp only
      rw [h]; exact hk
    · dsimp only
      rw [h]
      exact lookupTag_insertTag_isSome _ _ _ _ hk

theorem dataTypeOf_frame_witness :
    (lookupTag (DataTypeOf autoTaggedIntField).2.tagSettings
      "AUTO_INCREMENT").isSome = true :=
  (dataTypeOf_frame autoTaggedIntField).2.2 "AUTO_INCREMENT" rfl

theorem resolveType_idem (f : StructField) :
    resolveType { f with tagSettings := (resolveType f).2 } = resolveType f := by
  obtain ⟨pk, tags, dv, sql, sz, add⟩ := f
  obtain ⟨k, tn, tl, e8, tt⟩ := dv
  by_cases hs : sql = ""
  · subst hs
    cases k <;> first
      | rfl
      | (simp [resolveType, apply_ite Prod.snd]; done)
      | ((by_cases hc : ((lookupTag tags "AUTO_INCREMENT").isSome || pk) = true <;>
          simp [resolveType, hc, lookupTag_insertTag_self, insertTag_insertTag]); done)
  · simp [resolveType, hs]

/-- C4: if inference succeeds on a descriptor, running it again on the
(possibly tag-mutated) descriptor it returned succeeds with the same type
string and changes nothing further. -/
theorem dataTypeOf_idempotent (f : StructField) (r : String)
    (h : (DataTypeOf f).1 = .ok r) :
    DataTypeOf (DataTypeOf f).2 = (.ok r, (DataTypeOf f).2) := by
  have hfst : (DataTypeOf { f with tagSettings := (resolveType f).2 }).1 =
      (DataTypeOf f).1 := by
    dsimp only [DataTypeOf]
    rw [resolveType_idem]
  have hsnd : (DataTypeOf { f with tagSettings := (resolveType f).2 }).2 =
      { f with tagSettings := (resolveType f).2 } := by
    dsimp only [DataTypeOf]
    rw [resolveType_idem]
  rw [DataTypeOf_snd f]
  refine Prod.ext ?_ ?_
  · exact hfst.trans h
  · exact hsnd

theorem dataTypeOf_idempotent_witness :
    DataTypeOf (DataTypeOf intPKField).2 = (.ok "serial", (DataTypeOf intPKField).2) :=
  dataTypeOf_idempotent intPKField "serial" rfl

/-- C5: inference fails exactly when the descriptor has no non-empty
pre-set SQL type and the kind dispatch resolves nothing; the error message
names the runtime type name and the kind; on success the result is the
resolved type, with a space and the verbatim additional type appended
exactly when the trimmed additional type is non-empty. -/
theorem dataTypeOf_error_iff (f : StructField) :
    ((∃ e, (DataTypeOf f).1 = .error e) ↔ f.sqlType = "" ∧ (resolveType f).1 = "") ∧
    ((resolveType f).1 = "" →
      (DataTypeOf f).1 = .error ("invalid sql type " ++ f.dataValue.typeName ++
        " (" ++ kindString f.dataValue.kind ++ ") for postgres")) ∧
    ((resolveType f).1 ≠ "" →
      (DataTypeOf f).1 =
        if trimSpace f.additionalType = "" then .ok (resolveType f).1
        else .ok ((resolveType f).1 ++ " " ++ f.additionalType)) := by
  have hsql : (resolveType f).1 = "" → f.sqlType = "" := by
    intro h0
    by_cases hs : f.sqlType = ""
    · exact hs
    · have : (resolveType f).1 = f.sqlType := by simp [resolveType, hs]
      rw [this] at h0
      exact absurd h0 hs
  refine ⟨⟨?_, ?_⟩, ?_, ?_⟩
  · rintro ⟨e, he⟩
    by_cases h0 : (resolveType f).1 = ""
    · exact ⟨hsql h0, h0⟩
    · dsimp only [DataTypeOf] at he
      rw [if_neg h0] at he
      split at he <;> exact absurd he (by simp)
  · rintro ⟨hs, h0⟩
    exact ⟨_, by dsimp only [DataTypeOf]; rw [if_pos h0]⟩
  · intro h0
    dsimp only [DataTypeOf]
    rw [if_pos h0]
  · intro h0
    dsimp only [DataTypeOf]
    rw [if_neg h0]

def chanField : StructField := mkField false [] ⟨.chan, "myT", 0, false, false⟩ "" 0 ""

def notNullFloatField : StructField :=
  mkField false [] ⟨.float64, "float64", 0, false, false⟩ "" 0 "NOT NULL"

theorem dataTypeOf_error_iff_witness :
    (DataTypeOf chanField).1 = .error "invalid sql type myT (chan) for postgres" ∧
      (DataTypeOf notNullFloatField).1 = .ok "numeric NOT NULL" := by
  constructor
  · exact (dataTypeOf_error_iff chanField).2.1 rfl
  · have h := (dataTypeOf_error_iff notNullFloatField).2.2 (by decide)
    rw [if_neg (by decide)] at h
    exact h.trans rfl

/-- The connection handle: an oracle giving, for each query text and
argument list, either the scanned value or a driver error. `queryInt`
models `QueryRow(query, args...).Scan(&count)` into an `int` destination,
`queryString` the same into a `string` destination. -/
structure DB where
  queryInt : String → List String → Except String Int
  queryString : String → List String → Except String String

/-- Go's `var count int` followed by `.Scan(&count)` with the returned
error ignored: on failure the destination keeps its zero value. -/
def scanIntIgnoringError (r : Except String Int) : Int :=
  match r with
  | .ok n => n
  | .error _ => 0

/-- Go's `var name string` followed by `.Scan(&name)` with the returned
error ignored: on failure the destination keeps its zero value. -/
def scanStringIgnoringError (r : Except String String) : String :=
  match r with
  | .ok n => n
  | .error _ => ""

def hasIndexQuery : String :=
  "SELECT count(*) FROM pg_indexes WHERE tablename = $1 AND indexname = $2"

def hasForeignKeyQuery : String :=
  "\nSELECT Count(con.conname)\nFROM   pg_constraint con\nWHERE  $1 :: regclass :: oid = con.conrelid\n       AND con.conname = $2\n       AND con.contype = \x27f\x27\n\t"

def hasTableQuery : String :=
  "\nSELECT Count(*)\nFROM   information_schema.tables\nWHERE  table_name = $1\n       AND table_type = \x27BASE TABLE\x27\n\t"

def hasColumnQuery : String :=
  "\nSELECT Count(*)\nFROM   information_schema.columns\nWHERE  table_name = $1\n       AND column_name = $2\n\t"

def currentDatabaseQuery : String := "SELECT CURRENT_DATABASE()"

/-- `HasIndex` from dialect.go. -/
def HasIndex (db : DB) (tableName indexName : String) : Bool :=
  let count := scanIntIgnoringError (db.queryInt hasIndexQuery [tableName, indexName])
  decide (count > 0)

/-- `HasForeignKey` from dialect.go. -/
def HasForeignKey (db : DB) (tableName foreignKeyName : String) : Bool :=
  let count := scanIntIgnoringError
    (db.queryInt hasForeignKeyQuery [tableName, foreignKeyName])
  decide (count > 0)

/-- `HasTable` from dialect.go. -/
def HasTable (db : DB) (tableName : String) : Bool :=
  let count := scanIntIgnoringError (db.queryInt hasTableQuery [tableName])
  decide (count > 0)

/-- `HasColumn` from dialect.go. -/
def HasColumn (db : DB) (tableName columnName : String) : Bool :=
  let count := scanIntIgnoringError (db.queryInt hasColumnQuery [tableName, columnName])
  decide (count > 0)

/-- `CurrentDatabase` from dialect.go. -/
def CurrentDatabase (db : DB) : String :=
  scanStringIgnoringError (db.queryString currentDatabaseQuery [])

/-- Whether a query result is a driver error. -/
def queryFailed {α : Type} (r : Except String α) : Bool :=
  match r with
  | .error _ => true
  | .ok _ => false

theorem scanIntIgnoringError_failed (r : Except String Int)
    (h : queryFailed r = true) : scanIntIgnoringError r = 0 := by
  cases r with
  | ok n => simp [queryFailed] at h
  | error e => rfl

theorem scanStringIgnoringError_failed (r : Except String String)
    (h : queryFailed r = true) : scanStringIgnoringError r = "" := by
  cases r with
  | ok n => simp [queryFailed] at h
  | error e => rfl

/-- C8: when the underlying scan fails, each introspection probe reports
"does not exist" instead of propagating the error: the four existence
probes return false and the current-database query returns the empty
string. -/
theorem introspection_suppresses_errors (db : DB) (t i fk c : String) :
    (queryFailed (db.queryInt hasIndexQuery [t, i]) = true →
      HasIndex db t i = false) ∧
    (queryFailed (db.queryInt hasForeignKeyQuery [t, fk]) = true →
      HasForeignKey db t fk = false) ∧
    (queryFailed (db.queryInt hasTableQuery [t]) = true →
      HasTable db t = false) ∧
    (queryFailed (db.queryInt hasColumnQuery [t, c]) = true →
      HasColumn db t c = false) ∧
    (queryFailed (db.queryString currentDatabaseQuery []) = true →
      CurrentDatabase db = "") := by
  refine ⟨fun h => ?_, fun h => ?_, fun h => ?_, fun h => ?_, fun h => ?_⟩ <;>
    first
      | simp [HasIndex, HasForeignKey, HasTable, HasColumn,
          scanIntIgnoringError_failed _ h]
      | simp [CurrentDatabase, scanStringIgnoringError_failed _ h]

/-- A connection on which every probe fails. -/
def failDB : DB :=
  ⟨fun _ _ => .error "connection refused", fun _ _ => .error "connection refused"⟩

theorem introspection_suppresses_errors_witness :
    HasIndex failDB "t" "i" = false ∧ HasForeignKey failDB "t" "fk" = false ∧
      HasTable failDB "t" = false ∧ HasColumn failDB "t" "c" = false ∧
      CurrentDatabase failDB = "" := by
  have h := introspection_suppresses_errors failDB "t" "i" "fk" "c"
  exact ⟨h.1 rfl, h.2.1 rfl, h.2.2.1 rfl, h.2.2.2.1 rfl, h.2.2.2.2 rfl⟩

/-- A Go `driver.Value` as the codec sees it: SQL NULL or a byte string. -/
inductive DriverValue where
  | null
  | bytes (s : String)
deriving DecidableEq

/-- Go's `sql.NullString`: a string together with its validity flag; the
zero value is `⟨"", false⟩`. -/
structure NullString where
  str : String
  valid : Bool
deriving DecidableEq

/-- Modelled from the spec: the composite literal quotes keys and values,
escaping backslashes and double quotes with a backslash. -/
def escapeChar (c : Char) : List Char :=
  if c = '\\' ∨ c = '"' then ['\\', c] else [c]

def escapeChars : List Char → List Char
  | [] => []
  | c :: rest => escapeChar c ++ escapeChars rest

def quoteChars (s : List Char) : List Char := '"' :: (escapeChars s ++ ['"'])

/-- Modelled from the spec: a null entry value is written `NULL`, a valid
one as a quoted string. -/
def encodeNullString (v : NullString) : List Char :=
  if v.valid then quoteChars v.str.data else ['N', 'U', 'L', 'L']

/-- Modelled from the spec: one `"key"=>"value"` (or `"key"=>NULL`) pair of
the engine-native composite literal. -/
def encodeEntry (e : String × NullString) : List Char :=
  quoteChars e.1.data ++ '=' :: '>' :: encodeNullString e.2

/-- Modelled from the spec: comma-separated pairs. -/
def encodeEntries : List (String × NullString) → List Char
  | [] => []
  | [e] => encodeEntry e
  | e :: rest => encodeEntry e ++ ',' :: encodeEntries rest

/-- Modelled from the spec: read a quoted string after its opening quote,
undoing the backslash escapes; returns the string and the rest. -/
def parseQuoted : List Char → Option (List Char × List Char)
  | [] => none
  | c :: rest =>
    if c = '"' then some ([], rest)
    else if c = '\\' then
      match rest with
      | [] => none
      | d :: rest2 =>
        match parseQuoted rest2 with
        | some (s, r) => some (d :: s, r)
        | none => none
    else
      match parseQuoted rest with
      | some (s, r) => some (c :: s, r)
      | none => none

/-- Modelled from the spec: one `"key"=>"value"` / `"key"=>NULL` pair. -/
def parsePair (s : List Char) : Option ((String × NullString) × List Char) :=
  match s with
  | '"' :: rest =>
    match parseQuoted rest with
    | none => none
    | some (k, rest1) =>
      match rest1 with
      | '=' :: '>' :: rest2 =>
        match rest2 with
        | 'N' :: 'U' :: 'L' :: 'L' :: rest3 => some ((String.mk k, ⟨"", false⟩), rest3)
        | '"' :: rest3 =>
          match parseQuoted rest3 with
          | none => none
          | some (v, rest4) => some ((String.mk k, ⟨String.mk v, true⟩), rest4)
        | _ => none
      | _ => none
  | _ => none

/-- Modelled from the spec: comma-separated pairs until the input ends.
The fuel argument bounds the number of pairs; callers pass the input
length, which always suffices since each pair consumes characters. -/
def parseEntries : Nat → List Char → Option (List (String × NullString))
  | fuel, s =>
    if s.isEmpty then some []
    else
      match fuel with
      | 0 => none
      | fuel + 1 =>
        match parsePair s with
        | none => none
        | some (e, rest1) =>
          match rest1 with
          | [] => some [e]
          | ',' :: rest2 =>
            match parseEntries fuel rest2 with
            | none => none
            | some es => some (e :: es)
          | _ => none

/-- Modelled from the spec: `lib/pq` `hstore.Hstore.Value` serializes the
map of `sql.NullString` entries into the engine-native composite literal;
it has no failure mode of its own. -/
def pqHstoreValue (m : List (String × NullString)) : Except String DriverValue :=
  .ok (.bytes (String.mk (encodeEntries m)))

/-- Modelled from the spec: `lib/pq` `hstore.Hstore.Scan` parses a raw
driver value; SQL NULL parses to the empty map, and an unparseable byte
string is the composite-parse error the codec must propagate. -/
def pqHstoreScan : DriverValue → Except String (List (String × NullString))
  | .null => .ok []
  | .bytes s =>
    match parseEntries s.data.length s.data with
    | some entries => .ok entries
    | none => .error "pq: unable to parse hstore"

/-- `type Hstore map[string]*string` from the source, as an association
list from keys to optional values. -/
abbrev Hstore := List (String × Option String)

/-- The `var s sql.NullString; if value != nil { s.String = *value;
s.Valid = true }` conversion of the source's `Value` loop. -/
def toNullString : Option String → NullString
  | some s => ⟨s, true⟩
  | none => ⟨"", false⟩

/-- `Hstore.Value` from the source: an empty map encodes to SQL NULL,
otherwise every entry is converted to a `sql.NullString` and the pq
serializer produces the storage value. -/
def Hstore.Value (h : Hstore) : Except String DriverValue :=
  if h.length = 0 then .ok .null
  else pqHstoreValue (h.map fun e => (e.1, toNullString e.2))

/-- `Hstore.Scan` from the source: a pq parse error is returned with the
destination untouched; a parsed map with zero entries leaves the
destination untouched; otherwise the destination is replaced by the
converted entries. -/
def Hstore.Scan (h : Hstore) (value : DriverValue) : Except String Unit × Hstore :=
  match pqHstoreScan value with
  | .error e => (.error e, h)
  | .ok m =>
    if m.length = 0 then (.ok (), h)
    else (.ok (), m.map fun e => (e.1, if e.2.valid then some e.2.str else none))

example : parsePair ("\"a\"=>\"b\"".data) = some (("a", ⟨"b", true⟩), []) := rfl
example : parsePair ("\"a\"=>NULL".data) = some (("a", ⟨"", false⟩), []) := rfl
example : pqHstoreScan (.bytes "x") = .error "pq: unable to parse hstore" := rfl
example : Hstore.Value [("a", some "b"), ("k", none)] =
    .ok (.bytes "\"a\"=>\"b\",\"k\"=>NULL") := rfl
example : Hstore.Scan [("z", some "w")] (.bytes "\"a\"=>\"b\",\"k\"=>NULL") =
    (.ok (), [("a", some "b"), ("k", none)]) := rfl

theorem stringMk_data (s : String) : String.mk s.data = s := rfl

theorem parseQuoted_escapeChars (s rest : List Char) :
    parseQuoted (escapeChars s ++ '"' :: rest) = some (s, rest) := by
  induction s with
  | nil =>
    show parseQuoted ('"' :: rest) = some ([], rest)
    rw [parseQuoted.eq_def]
    simp
  | cons c s ih =>
    by_cases h1 : c = '"'
    · subst h1
      have he : escapeChars ('"' :: s) = '\\' :: '"' :: escapeChars s := by
        simp [escapeChars, escapeChar]
      rw [he, List.cons_append, List.cons_append, parseQuoted.eq_def]
      simp [ih]
    · by_cases h2 : c = '\\'
      · subst h2
        have he : escapeChars ('\\' :: s) = '\\' :: '\\' :: escapeChars s := by
          simp [escapeChars, escapeChar]
        rw [he, List.cons_append, List.cons_append, parseQuoted.eq_def]
        simp [ih]
      · have he : escapeChars (c :: s) = c :: escapeChars s := by
          simp [escapeChars, escapeChar, h1, h2]
        rw [he, List.cons_append, parseQuoted.eq_def]
        simp [h1, h2, ih]

theorem parsePair_encodeEntry (e : String × NullString) (rest : List Char)
    (hwf : e.2.valid = false → e.2.str = "") :
    parsePair (encodeEntry e ++ rest) = some (e, rest) := by
  obtain ⟨k, str, valid⟩ := e
  cases valid with
  | false =>
    have hstr : str = "" := hwf rfl
    subst hstr
    simp [encodeEntry, quoteChars, encodeNullString, parsePair,
      parseQuoted_escapeChars]
  | true =>
    simp [encodeEntry, quoteChars, encodeNullString, parsePair,
      parseQuoted_escapeChars]

theorem encodeEntry_ne_nil (e : String × NullString) : encodeEntry e ≠ [] := by
  simp [encodeEntry, quoteChars]

theorem parseEntries_encodeEntries (m : List (String × NullString)) (fuel : Nat)
    (hfuel : m.length ≤ fuel)
    (hwf : ∀ e ∈ m, e.2.valid = false → e.2.str = "") :
    parseEntries fuel (encodeEntries m) = some m := by
  induction m generalizing fuel with
  | nil => cases fuel <;> rfl
  | cons e m ih =>
    cases fuel with
    | zero => simp at hfuel
    | succ f =>
      cases m with
      | nil =>
        have hp0 : parsePair (encodeEntry e ++ []) = some (e, []) :=
          parsePair_encodeEntry e [] (hwf e (by simp))
        rw [show encodeEntries [e] = encodeEntry e ++ [] from
          (List.append_nil _).symm]
        rw [parseEntries, hp0]
        simp [encodeEntry, quoteChars]
      | cons e2 m2 =>
        have hp : parsePair (encodeEntry e ++ ',' :: encodeEntries (e2 :: m2)) =
            some (e, ',' :: encodeEntries (e2 :: m2)) :=
          parsePair_encodeEntry e _ (hwf e (by simp))
        have ihm : parseEntries f (encodeEntries (e2 :: m2)) = some (e2 :: m2) :=
          ih f (by simpa using Nat.le_of_succ_le_succ hfuel)
            (fun x hx => hwf x (by simp [hx]))
        rw [show encodeEntries (e :: e2 :: m2) =
          encodeEntry e ++ ',' :: encodeEntries (e2 :: m2) from rfl]
        rw [parseEntries, hp]
        simp [ihm, encodeEntry, quoteChars]

theorem toNull_wf (h : Hstore) :
    ∀ e ∈ h.map (fun x => (x.1, toNullString x.2)),
      e.2.valid = false → e.2.str = "" := by
  intro e he
  simp [List.mem_map] at he
  obtain ⟨x1, x2, hmem, heq⟩ := he
  subst heq
  cases x2 <;> simp [toNullString]

theorem fromNull_toNull_comp :
    ((fun e : String × NullString =>
        (e.1, if e.2.valid = true then some e.2.str else none)) ∘
      (fun x : String × Option String => (x.1, toNullString x.2))) = id := by
  funext x
  obtain ⟨x1, x2⟩ := x
  cases x2 <;> simp [toNullString]

theorem length_le_encodeEntries (m : List (String × NullString)) :
    m.length ≤ (encodeEntries m).length := by
  induction m with
  | nil => simp [encodeEntries]
  | cons e t ih =>
    cases t with
    | nil =>
      simp [encodeEntries, encodeEntry, quoteChars]
    | cons e2 t2 =>
      rw [show encodeEntries (e :: e2 :: t2) =
        encodeEntry e ++ ',' :: encodeEntries (e2 :: t2) from rfl]
      simp only [List.length_cons, List.length_append]
      have h1 : 1 ≤ (encodeEntry e).length := by
        simp [encodeEntry, quoteChars]
      simp only [List.length_cons] at ih ⊢
      omega

/-- C6: round-trip of the composite scalar codec — encoding a non-empty
`Hstore` and decoding the resulting storage value (into any destination)
reproduces the original map, including keys mapped to `none`. -/
theorem hstore_roundtrip (h h0 : Hstore) (hne : h ≠ []) :
    ∃ v, Hstore.Value h = .ok v ∧ Hstore.Scan h0 v = (.ok (), h) := by
  refine ⟨.bytes (String.mk (encodeEntries (h.map fun e => (e.1, toNullString e.2)))),
    ?_, ?_⟩
  · simp [Hstore.Value, pqHstoreValue, List.length_eq_zero, hne]
  · have hparse := parseEntries_encodeEntries
      (h.map fun e => (e.1, toNullString e.2))
      ((encodeEntries (h.map fun e => (e.1, toNullString e.2))).length)
      (length_le_encodeEntries _) (toNull_wf h)
    have hmapne : (h.map fun e => (e.1, toNullString e.2)) ≠ [] := by
      simp [List.map_eq_nil_iff, hne]
    simp [Hstore.Scan, pqHstoreScan, stringMk_data, hparse,
      List.length_eq_zero, hmapne, hne, fromNull_toNull_comp]

def sampleHstore : Hstore := [("a", some "b"), ("k", none)]

def destHstore : Hstore := [("z", some "w")]

theorem hstore_roundtrip_witness :
    ∃ v, Hstore.Value sampleHstore = .ok v ∧
      Hstore.Scan destHstore v = (.ok (), sampleHstore) :=
  hstore_roundtrip sampleHstore destHstore (by decide)

/-- C7: an empty `Hstore` encodes to SQL NULL, and decoding any raw value
whose parsed composite representation has zero entries (SQL NULL included)
succeeds and leaves the destination exactly as it was. -/
theorem hstore_empty_asymmetry (h0 : Hstore) (v : DriverValue)
    (m : List (String × NullString)) :
    Hstore.Value [] = .ok .null ∧
      (pqHstoreScan v = .ok m → m.length = 0 →
        Hstore.Scan h0 v = (.ok (), h0)) := by
  refine ⟨rfl, fun hv hm => ?_⟩
  simp [Hstore.Scan, hv, hm]

theorem hstore_empty_asymmetry_witness :
    Hstore.Value [] = .ok .null ∧
      Hstore.Scan destHstore .null = (.ok (), destHstore) :=
  ⟨(hstore_empty_asymmetry destHstore .null []).1,
    (hstore_empty_asymmetry destHstore .null []).2 rfl rfl⟩

/-- C10: when the underlying composite parse fails, `Hstore.Scan` returns
that error unchanged and the destination is left exactly as it was. -/
theorem hstore_scan_error_frame (h0 : Hstore) (v : DriverValue) (e : String)
    (herr : pqHstoreScan v = .error e) :
    Hstore.Scan h0 v = (.error e, h0) := by
  simp [Hstore.Scan, herr]

theorem hstore_scan_error_frame_witness :
    Hstore.Scan destHstore (.bytes "x") =
      (.error "pq: unable to parse hstore", destHstore) :=
  hstore_scan_error_frame destHstore (.bytes "x") _ rfl
